import Mathlib

/-!
Shallow embedding of the screenshot bot in `src/extracutu.js`: the session
store, the batch OCR pipeline (`processSessionScreenshots`), the expiry sweep
(`cleanupSessions`), and the text-command handler (`bot.on` for text).
External collaborators (screen capture, the Gemini upload and OCR service, the
Claude answer service) are modelled as oracles passed in as parameters; every
outbound network request and every file deletion the code performs is recorded
explicitly so that resource claims can be stated.
-/

/-- A capture artifact (a screenshot file path) is identified by a numeric id. -/
abbrev Artifact := Nat

/-- The `CONFIG` feature-flag object at the top of the source file.
`gemini_ocr` and `chatgpt_answer` are the two adapter enable flags;
`session_timeout` is in minutes. -/
structure Config where
  gemini_ocr : Bool
  chatgpt_answer : Bool
  session_timeout : Nat
  deriving Repr, DecidableEq

/-- The source's default flag values: `gemini_ocr: 1, chatgpt_answer: 1,
session_timeout: 45`. -/
def CONFIG : Config := { gemini_ocr := true, chatgpt_answer := true, session_timeout := 45 }

/-- JS sparse-array read `arr[i]`: holes and out-of-range reads are `none`
(`undefined`). -/
def getSlot : List (Option α) → Nat → Option α
  | [], _ => none
  | o :: _, 0 => o
  | _ :: l, n + 1 => getSlot l n

/-- JS sparse-array write `arr[i] = a`: a write past the end extends the array
with holes up to index `i`. -/
def setSlot : List (Option α) → Nat → α → List (Option α)
  | [], 0, a => [some a]
  | [], n + 1, a => none :: setSlot [] n a
  | _ :: l, 0, a => some a :: l
  | o :: l, n + 1, a => o :: setSlot l n a

/-- A user session, as built by `createSession`: parallel sparse arrays
`screenshots` and `extractedTexts`, plus the creation/reset timestamp. -/
structure Session where
  userId : Nat
  chatId : Nat
  screenshots : List (Option Artifact)
  extractedTexts : List (Option String)
  startTime : Nat
  deriving Repr, DecidableEq

/-- The process-wide `userSessions` map, keyed by user id.  A JS `Map` keeps
insertion order and has unique keys; it is modelled as an association list in
insertion order. -/
abbrev Store := List (Nat × Session)

/-- `userSessions.get(userId)` (the first entry with the given key). -/
def storeGet (st : Store) (uid : Nat) : Option Session :=
  (st.find? (fun e => e.1 == uid)).map (fun e => e.2)

/-- `userSessions.set(userId, s)`: replace the existing entry in place, or
append a new one. -/
def storeSet (st : Store) (uid : Nat) (s : Session) : Store :=
  if st.any (fun e => e.1 == uid) then
    st.map (fun e => if e.1 == uid then (uid, s) else e)
  else st ++ [(uid, s)]

/-- `createSession`: a fresh session with empty arrays and the current time,
inserted into the map. -/
def createSession (uid chatId now : Nat) : Session :=
  { userId := uid, chatId := chatId, screenshots := [], extractedTexts := [], startTime := now }

/-- `getOrCreateSession`: return the existing session for the user, or create
one (inserting it into the store).  Returns the session together with the
possibly-updated store. -/
def getOrCreateSession (st : Store) (uid chatId now : Nat) : Session × Store :=
  match storeGet st uid with
  | some s => (s, st)
  | none => (createSession uid chatId now, storeSet st uid (createSession uid chatId now))

/-- The string `extractTextFromImage` returns when the OCR flag is off. -/
def EXTRACT_SENTINEL : String := "Gemini OCR is disabled in feature flags"

/-- `extractTextFromImage`, with the upload step and the OCR exchange as
oracles.  When the flag is off it returns the fixed sentinel without touching
the network; otherwise it uploads (recorded in the second component), and any
upload or service failure is caught and surfaced as `none`.  The second
component lists the artifacts for which an upload request was issued. -/
def extractTextFromImage (gemini : Bool) (upload : Artifact → Option Nat)
    (ocr : Nat → Option String) (a : Artifact) : Option String × List Artifact :=
  if !gemini then (some EXTRACT_SENTINEL, [])
  else
    match upload a with
    | none => (none, [a])
    | some f => (ocr f, [a])

/-- `getAnswerFromChatGPT`, with the Claude exchange as an oracle.  When the
answer flag is off it returns the fixed sentinel without touching the network;
otherwise one request is issued (recorded in the second component) and a
service failure is caught and replaced by the fixed failure string. -/
def getAnswerFromChatGPT (chatgpt : Bool) (answerOr : String → Option String)
    (promptText : String) : String × List String :=
  if !chatgpt then ("Claude answer is disabled in feature flags", [])
  else
    match answerOr promptText with
    | some ans => (ans, [promptText])
    | none => ("Failed to get the answer from Claude.", [promptText])

/-- The string used for a batch item when the OCR flag is off (the inline
ternary in `processSessionScreenshots`, a different sentinel from the one in
`extractTextFromImage`). -/
def SENTINEL_BATCH : String := "Gemini OCR is disabled"

/-- The per-item extraction in the batch loop:
`CONFIG.gemini_ocr ? await extractTextFromImage(screenshot) : "Gemini OCR is disabled"`.
`ex` is the behaviour of `extractTextFromImage` with the flag on (`none` for a
caught upload/service failure). -/
def extractStep (gemini : Bool) (ex : Artifact → Option String) (a : Artifact) : Option String :=
  if gemini then ex a else some SENTINEL_BATCH

/-- `session.screenshots.findIndex(s => s === screenshot) + 1`: the 1-based
slot number under which an item is labelled in the batch loop. -/
def screenshotNumber (ss : List (Option Artifact)) (a : Artifact) : Nat :=
  ss.findIdx (fun s => s == some a) + 1

/-- The `----- SCREENSHOT n -----` delimiter segment appended to
`allExtractedText` for one successfully extracted item. -/
def renderSegment (p : Nat × String) : String :=
  "\n\n----- SCREENSHOT " ++ toString p.1 ++ " -----\n\n" ++ p.2

/-- Mutable state threaded through the batch loop, plus the effect logs the
loop produces: `deleted` records every `fs.unlink` call, `ocrCalls` every
invocation of `extractTextFromImage`, `processedLabels` the slot numbers in
processing order, and `combinedSegs` the (slot number, text) segments appended
to `allExtractedText`. -/
structure BatchState where
  extractedTexts : List (Option String)
  combinedSegs : List (Nat × String)
  processedCount : Nat
  deleted : List Artifact
  processedLabels : List Nat
  ocrCalls : List Artifact
  deriving Repr, DecidableEq

/-- One iteration of the batch loop body for the item `shot`: label it with
its slot number, extract (only calling the OCR adapter when the flag is on),
and on a truthy result (JS: non-null and non-empty) store the text at the
slot's index in `extractedTexts`, append a delimited segment, and bump
`processedCount`; in every case unlink the screenshot file afterwards. -/
def batchStep (gemini : Bool) (ex : Artifact → Option String) (ss : List (Option Artifact))
    (st : BatchState) (shot : Artifact) : BatchState :=
  let n := screenshotNumber ss shot
  let extractedText := extractStep gemini ex shot
  let st1 := { st with
    processedLabels := st.processedLabels ++ [n],
    ocrCalls := st.ocrCalls ++ (if gemini then [shot] else []) }
  let st2 :=
    match extractedText with
    | some t =>
      if !t.isEmpty then
        { st1 with
          extractedTexts := setSlot st1.extractedTexts (n - 1) t,
          combinedSegs := st1.combinedSegs ++ [(n, t)],
          processedCount := st1.processedCount + 1 }
      else st1
    | none => st1
  { st2 with deleted := st2.deleted ++ [shot] }

/-- The observable outcome of one `processSessionScreenshots` call: the
summary numbers reported in `combinedResponse`, the `allExtractedText` buffer,
the effect logs, the state of `extractedTexts` just before the final reset,
and the session as left behind. -/
structure RunResult where
  noop : Bool
  total : Nat
  success : Nat
  failed : Nat
  combined : String
  combinedSegs : List (Nat × String)
  processedLabels : List Nat
  ocrCalls : List Artifact
  answerCalls : List String
  deleted : List Artifact
  extractedTextsBeforeReset : List (Option String)
  finalSession : Session
  deriving Repr, DecidableEq

/-- `processSessionScreenshots(session, ctx)`.  An empty `screenshots` array
returns the "No screenshots to process." result at once, touching nothing.
Otherwise every occupied slot is processed in ascending slot order; after the
loop, if the answer flag is on and `allExtractedText` is truthy, exactly one
`getAnswerFromChatGPT` call is made over the whole buffer; finally the session
arrays are cleared in place and `startTime` set to the completion time. -/
def processSessionScreenshots (cfg : Config) (ex : Artifact → Option String)
    (answerOr : String → Option String) (endTime : Nat) (session : Session) : RunResult :=
  if session.screenshots.length = 0 then
    { noop := true, total := 0, success := 0, failed := 0, combined := "",
      combinedSegs := [], processedLabels := [], ocrCalls := [], answerCalls := [],
      deleted := [], extractedTextsBeforeReset := session.extractedTexts,
      finalSession := session }
  else
    let validScreenshots := session.screenshots.filterMap id
    let totalScreenshots := validScreenshots.length
    let st := validScreenshots.foldl (batchStep cfg.gemini_ocr ex session.screenshots)
      { extractedTexts := session.extractedTexts, combinedSegs := [], processedCount := 0,
        deleted := [], processedLabels := [], ocrCalls := [] }
    let allExtractedText := String.join (st.combinedSegs.map renderSegment)
    let answerCalls :=
      if cfg.chatgpt_answer && !allExtractedText.isEmpty then
        (getAnswerFromChatGPT cfg.chatgpt_answer answerOr allExtractedText).2
      else []
    { noop := false, total := totalScreenshots, success := st.processedCount,
      failed := totalScreenshots - st.processedCount, combined := allExtractedText,
      combinedSegs := st.combinedSegs, processedLabels := st.processedLabels,
      ocrCalls := st.ocrCalls, answerCalls := answerCalls, deleted := st.deleted,
      extractedTextsBeforeReset := st.extractedTexts,
      finalSession := { session with screenshots := [], extractedTexts := [], startTime := endTime } }

/-- `CONFIG.session_timeout * 60 * 1000`, the sweep threshold in milliseconds. -/
def timeoutMs (cfg : Config) : Nat := cfg.session_timeout * 60 * 1000

/-- `now - session.startTime > timeoutMs` (truncated subtraction agrees with
the JS comparison for every timeout value). -/
def expiredSession (now tm : Nat) (s : Session) : Bool := now - s.startTime > tm

/-- Ordered observable events of one `cleanupSessions` pass.  Each expired
session's occupied slots produce `unlinkStarted` events (the `fs.unlink` call
inside the `async` callback runs up to its first suspension), then the session
is removed from the map; the deletions are not awaited, so their completions
(`unlinkCompleted`, with a success flag — a failure is caught and only logged)
are observed only after the sweep's synchronous pass is over. -/
inductive SweepEvent where
  | unlinkStarted (a : Artifact)
  | sessionRemoved (uid : Nat)
  | unlinkCompleted (a : Artifact) (ok : Bool)
  deriving Repr, DecidableEq

/-- Predicate pickers over sweep events. -/
def isStarted (a : Artifact) : SweepEvent → Bool
  | SweepEvent.unlinkStarted b => b == a
  | _ => false

def isRemoved (u : Nat) : SweepEvent → Bool
  | SweepEvent.sessionRemoved v => v == u
  | _ => false

def isCompleted (a : Artifact) : SweepEvent → Bool
  | SweepEvent.unlinkCompleted b _ => b == a
  | _ => false

/-- `eventBefore p q evs`: some `p`-event occurs strictly before some
`q`-event in the trace. -/
def eventBefore (p q : SweepEvent → Bool) : List SweepEvent → Bool
  | [] => false
  | e :: rest => (p e && rest.any q) || eventBefore p q rest

/-- The synchronous part of one sweep iteration for one map entry: an expired
entry starts an unlink for every occupied slot, then is removed from the map;
a live entry is kept untouched. -/
def sweepEntry (now tm : Nat) (e : Nat × Session) : Option (Nat × Session) × List SweepEvent :=
  if expiredSession now tm e.2 then
    (none, (e.2.screenshots.filterMap id).map SweepEvent.unlinkStarted ++
      [SweepEvent.sessionRemoved e.1])
  else (some e, [])

/-- The deferred completions of the unlinks a sweep started, in initiation
order; `fails` says which deletions error out (the error is caught inside the
callback and only logged). -/
def completionsOf (fails : Artifact → Bool) (evs : List SweepEvent) : List SweepEvent :=
  evs.filterMap (fun e => match e with
    | SweepEvent.unlinkStarted a => some (SweepEvent.unlinkCompleted a (!fails a))
    | _ => none)

/-- The session map after one sweep pass. -/
def sweepStore (now tm : Nat) (st : Store) : Store :=
  (st.map (sweepEntry now tm)).filterMap Prod.fst

/-- The synchronous events of one sweep pass, in map order. -/
def sweepEvents (now tm : Nat) (st : Store) : List SweepEvent :=
  ((st.map (sweepEntry now tm)).map Prod.snd).flatten

/-- `cleanupSessions`: iterate the whole map, purge every expired session
(firing off its slot deletions without awaiting them), and return the new map
together with the full observable event trace. -/
def cleanupSessions (cfg : Config) (now : Nat) (fails : Artifact → Bool) (st : Store) :
    Store × List SweepEvent :=
  (sweepStore now (timeoutMs cfg) st,
    sweepEvents now (timeoutMs cfg) st ++
      completionsOf fails (sweepEvents now (timeoutMs cfg) st))

/-- Erase the success flags of completion events (used to state that failures
change nothing but the flags). -/
def forgetOk : SweepEvent → SweepEvent
  | SweepEvent.unlinkCompleted a _ => SweepEvent.unlinkCompleted a true
  | e => e

/-- Which branch of the `bot.on` text handler a message took. -/
inductive Branch where
  | unauthorized
  | singleShot
  | digitCapture (d : Nat)
  | digitProcessEmpty
  | digitProcessRun
  | otherText
  deriving Repr, DecidableEq

/-- Observable outcome of handling one inbound text message: the session map
afterwards, the branch taken, whether any outbound message was sent, and the
files unlinked while handling it. -/
structure HandleResult where
  store : Store
  branch : Branch
  sentAny : Bool
  unlinked : List Artifact
  deriving Repr, DecidableEq

/-- `message.toLowerCase().includes("ss")` on the character list of the
message (after the lower-casing). -/
def containsSS : List Char → Bool
  | [] => false
  | c :: rest =>
    (c == 's' && (match rest with | c2 :: _ => c2 == 's' | [] => false)) || containsSS rest

/-- The regex `/^[0-9]$/` followed by `parseInt`: a single digit character, or
nothing. -/
def parseDigitMsg : List Char → Option Nat
  | [c] => if '0' ≤ c && c ≤ '9' then some (c.toNat - '0'.toNat) else none
  | _ => none

/-- The digit branch of the text handler.  `getOrCreateSession` runs first for
every digit.  Digits 1-9 take a screenshot (`captureResult`, `none` when
`takeScreenshot` throws) and write it over slot `digit - 1` with no release of
a previously stored artifact; digit 0 replies "no screenshots" when no slot is
occupied and otherwise runs the batch pipeline and stores the reset session. -/
def handleDigit (cfg : Config) (ex : Artifact → Option String)
    (answerOr : String → Option String) (captureResult : Option Artifact) (now : Nat)
    (st : Store) (uid chatId digit : Nat) : HandleResult :=
  let session := (getOrCreateSession st uid chatId now).1
  let st1 := (getOrCreateSession st uid chatId now).2
  if 1 ≤ digit && digit ≤ 9 then
    match captureResult with
    | none => { store := st1, branch := Branch.digitCapture digit, sentAny := true, unlinked := [] }
    | some a =>
      let s2 := { session with screenshots := setSlot session.screenshots (digit - 1) a }
      { store := storeSet st1 uid s2, branch := Branch.digitCapture digit, sentAny := true,
        unlinked := [] }
  else if digit == 0 then
    if (session.screenshots.filterMap id).length == 0 then
      { store := st1, branch := Branch.digitProcessEmpty, sentAny := true, unlinked := [] }
    else
      let r := processSessionScreenshots cfg ex answerOr now session
      { store := storeSet st1 uid r.finalSession, branch := Branch.digitProcessRun,
        sentAny := true, unlinked := r.deleted }
  else
    { store := st1, branch := Branch.otherText, sentAny := false, unlinked := [] }

/-- The `bot.on` text handler.  An unauthorized chat id returns at once with
no reply and no store access.  Otherwise a message whose lower-cased text
contains `ss` runs the single-shot flow (which never touches the session
store: it captures, replies with the image, optionally extracts and answers,
and unlinks the capture on the success path) and returns; otherwise a
single-digit message is dispatched to `handleDigit`.  The replies themselves
are abstracted to the `sentAny` flag. -/
def handleText (cfg : Config) (chatIds : List Nat) (ex : Artifact → Option String)
    (answerOr : String → Option String) (captureResult : Option Artifact) (now : Nat)
    (st : Store) (chatId uid : Nat) (msg : List Char) : HandleResult :=
  if !(chatIds.contains chatId) then
    { store := st, branch := Branch.unauthorized, sentAny := false, unlinked := [] }
  else if containsSS (msg.map Char.toLower) then
    match captureResult with
    | none => { store := st, branch := Branch.singleShot, sentAny := true, unlinked := [] }
    | some a => { store := st, branch := Branch.singleShot, sentAny := true, unlinked := [a] }
  else
    match parseDigitMsg msg with
    | some d => handleDigit cfg ex answerOr captureResult now st uid chatId d
    | none => { store := st, branch := Branch.otherText, sentAny := false, unlinked := [] }

/-- World state for tracking files across a command sequence: the session map,
the screenshot files currently existing on disk, and every unlink call made. -/
structure World where
  store : Store
  files : List Artifact
  unlinkCalls : List Artifact
  deriving Repr, DecidableEq

/-- One digit command with the fresh artifact its `takeScreenshot` would
produce: digits 1-9 write a new file to disk, and any unlinks the handler
performs remove files and are logged. -/
def stepCaptureCmd (cfg : Config) (now uid chatId : Nat) (w : World) (cmd : Nat × Artifact) :
    World :=
  let r := handleDigit cfg (fun _ => none) (fun _ => none) (some cmd.2) now w.store uid chatId
    cmd.1
  { store := r.store,
    files := (if 1 ≤ cmd.1 && cmd.1 ≤ 9 then w.files ++ [cmd.2] else w.files).diff r.unlinked,
    unlinkCalls := w.unlinkCalls ++ r.unlinked }

/-- Run a sequence of digit commands from an empty world. -/
def runCaptureSeq (cfg : Config) (now uid chatId : Nat) (cmds : List (Nat × Artifact)) : World :=
  cmds.foldl (stepCaptureCmd cfg now uid chatId) { store := [], files := [], unlinkCalls := [] }


/-- What one batch item contributes to `allExtractedText`: `some (n, t)` when
its extraction result is truthy (with `n` its slot number), `none` otherwise. -/
def segOf (gemini : Bool) (ex : Artifact → Option String) (ss : List (Option Artifact))
    (a : Artifact) : Option (Nat × String) :=
  match extractStep gemini ex a with
  | some t => if !t.isEmpty then some (screenshotNumber ss a, t) else none
  | none => none

/-- The `extractedTexts` write one batch item performs. -/
def storeSeg (et : List (Option String)) : Option (Nat × String) → List (Option String)
  | some (n, t) => setSlot et (n - 1) t
  | none => et

theorem getSlot_setSlot_self : ∀ (l : List (Option α)) (i : Nat) (a : α),
    getSlot (setSlot l i a) i = some a
  | [], 0, _ => rfl
  | [], n + 1, a => by
    simpa [setSlot, getSlot] using getSlot_setSlot_self ([] : List (Option α)) n a
  | _ :: _, 0, _ => rfl
  | _ :: t, n + 1, a => by
    simpa [setSlot, getSlot] using getSlot_setSlot_self t n a

theorem getSlot_nil (j : Nat) : getSlot ([] : List (Option α)) j = none := by
  cases j <;> rfl

theorem getSlot_setSlot_ne : ∀ (l : List (Option α)) (i j : Nat) (a : α), i ≠ j →
    getSlot (setSlot l i a) j = getSlot l j
  | [], 0, 0, _, h => absurd rfl h
  | [], 0, _ + 1, _, _ => by simp [setSlot, getSlot, getSlot_nil]
  | [], n + 1, 0, _, _ => by simp [setSlot, getSlot]
  | [], n + 1, k + 1, a, h => by
    have : n ≠ k := fun hnk => h (by simp [hnk])
    simpa [setSlot, getSlot, getSlot_nil] using getSlot_setSlot_ne [] n k a this
  | _ :: _, 0, 0, _, h => absurd rfl h
  | _ :: _, 0, _ + 1, _, _ => by simp [setSlot, getSlot]
  | _ :: _, n + 1, 0, _, _ => by simp [setSlot, getSlot]
  | _ :: t, n + 1, k + 1, a, h => by
    have : n ≠ k := fun hnk => h (by simp [hnk])
    simpa [setSlot, getSlot] using getSlot_setSlot_ne t n k a this

theorem eventBefore_append_of_left {p q : SweepEvent → Bool} {l₁ : List SweepEvent}
    (l₂ : List SweepEvent) (h : eventBefore p q l₁ = true) :
    eventBefore p q (l₁ ++ l₂) = true := by
  induction l₁ with
  | nil => simp [eventBefore] at h
  | cons e t ih =>
    simp only [eventBefore, Bool.or_eq_true, Bool.and_eq_true] at h ⊢
    rcases h with ⟨hp, ht⟩ | h
    · exact Or.inl ⟨hp, by simp [ht]⟩
    · exact Or.inr (ih h)

theorem eventBefore_append_of_right {p q : SweepEvent → Bool} (l₁ : List SweepEvent)
    {l₂ : List SweepEvent} (h : eventBefore p q l₂ = true) :
    eventBefore p q (l₁ ++ l₂) = true := by
  induction l₁ with
  | nil => simpa using h
  | cons e t ih => simp only [List.cons_append, eventBefore, Bool.or_eq_true]; exact Or.inr ih

theorem eventBefore_of_any {p q : SweepEvent → Bool} {l₁ l₂ : List SweepEvent}
    (h1 : l₁.any p = true) (h2 : l₂.any q = true) :
    eventBefore p q (l₁ ++ l₂) = true := by
  induction l₁ with
  | nil => simp at h1
  | cons e t ih =>
    simp only [List.any_cons, Bool.or_eq_true] at h1
    simp only [List.cons_append, eventBefore, Bool.or_eq_true, Bool.and_eq_true]
    rcases h1 with hp | ht
    · exact Or.inl ⟨hp, by simp [h2]⟩
    · exact Or.inr (ih ht)

theorem batchStep_eq (gem : Bool) (ex : Artifact → Option String) (ss : List (Option Artifact))
    (st : BatchState) (shot : Artifact) :
    batchStep gem ex ss st shot =
      { extractedTexts := storeSeg st.extractedTexts (segOf gem ex ss shot),
        combinedSegs := st.combinedSegs ++ (segOf gem ex ss shot).toList,
        processedCount := st.processedCount + (segOf gem ex ss shot).toList.length,
        deleted := st.deleted ++ [shot],
        processedLabels := st.processedLabels ++ [screenshotNumber ss shot],
        ocrCalls := st.ocrCalls ++ (if gem then [shot] else []) } := by
  unfold batchStep segOf storeSeg
  cases h : extractStep gem ex shot with
  | none => simp [h]
  | some t =>
    by_cases ht : t.isEmpty <;> simp [h, ht]

theorem foldl_batchStep (gem : Bool) (ex : Artifact → Option String)
    (ss : List (Option Artifact)) (valid : List Artifact) (st : BatchState) :
    valid.foldl (batchStep gem ex ss) st =
      { extractedTexts :=
          valid.foldl (fun et a => storeSeg et (segOf gem ex ss a)) st.extractedTexts,
        combinedSegs := st.combinedSegs ++ valid.filterMap (segOf gem ex ss),
        processedCount := st.processedCount + (valid.filterMap (segOf gem ex ss)).length,
        deleted := st.deleted ++ valid,
        processedLabels := st.processedLabels ++ valid.map (screenshotNumber ss),
        ocrCalls := st.ocrCalls ++ (if gem then valid else []) } := by
  induction valid generalizing st with
  | nil => simp
  | cons a l ih =>
    rw [List.foldl_cons, ih, batchStep_eq]
    cases h : segOf gem ex ss a with
    | none => cases gem <;> simp [h, List.append_assoc]
    | some p => cases gem <;> simp [h, List.append_assoc] <;> omega

theorem getAnswerFromChatGPT_requests (answerOr : String → Option String) (p : String) :
    (getAnswerFromChatGPT true answerOr p).2 = [p] := by
  unfold getAnswerFromChatGPT
  cases answerOr p <;> simp

/-- Full characterization of a non-empty batch run. -/
theorem processSessionScreenshots_run (cfg : Config) (ex : Artifact → Option String)
    (answerOr : String → Option String) (endTime : Nat) (s : Session)
    (h : s.screenshots.length ≠ 0) :
    processSessionScreenshots cfg ex answerOr endTime s =
      { noop := false,
        total := (s.screenshots.filterMap id).length,
        success := ((s.screenshots.filterMap id).filterMap
          (segOf cfg.gemini_ocr ex s.screenshots)).length,
        failed := (s.screenshots.filterMap id).length -
          ((s.screenshots.filterMap id).filterMap (segOf cfg.gemini_ocr ex s.screenshots)).length,
        combined := String.join (((s.screenshots.filterMap id).filterMap
          (segOf cfg.gemini_ocr ex s.screenshots)).map renderSegment),
        combinedSegs := (s.screenshots.filterMap id).filterMap
          (segOf cfg.gemini_ocr ex s.screenshots),
        processedLabels := (s.screenshots.filterMap id).map (screenshotNumber s.screenshots),
        ocrCalls := if cfg.gemini_ocr then s.screenshots.filterMap id else [],
        answerCalls :=
          (if cfg.chatgpt_answer && !(String.join (((s.screenshots.filterMap id).filterMap
              (segOf cfg.gemini_ocr ex s.screenshots)).map renderSegment)).isEmpty then
            [String.join (((s.screenshots.filterMap id).filterMap
              (segOf cfg.gemini_ocr ex s.screenshots)).map renderSegment)]
          else []),
        deleted := s.screenshots.filterMap id,
        extractedTextsBeforeReset := (s.screenshots.filterMap id).foldl
          (fun et a => storeSeg et (segOf cfg.gemini_ocr ex s.screenshots a)) s.extractedTexts,
        finalSession :=
          { s with screenshots := [], extractedTexts := [], startTime := endTime } } := by
  unfold processSessionScreenshots
  rw [if_neg h]
  simp only [foldl_batchStep, List.nil_append, Nat.zero_add]
  congr 1
  by_cases hc : cfg.chatgpt_answer &&
      !(String.join (((s.screenshots.filterMap id).filterMap
        (segOf cfg.gemini_ocr ex s.screenshots)).map renderSegment)).isEmpty
  · rw [if_pos hc, if_pos hc]
    have hflag : cfg.chatgpt_answer = true := by
      revert hc
      cases cfg.chatgpt_answer <;> simp
    rw [hflag, getAnswerFromChatGPT_requests]
  · rw [if_neg hc, if_neg hc]

/-- An empty `screenshots` array short-circuits the batch: nothing happens and
the session (its `startTime` included) is untouched. -/
theorem processSessionScreenshots_noop (cfg : Config) (ex : Artifact → Option String)
    (answerOr : String → Option String) (endTime : Nat) (s : Session)
    (h : s.screenshots.length = 0) :
    processSessionScreenshots cfg ex answerOr endTime s =
      { noop := true, total := 0, success := 0, failed := 0, combined := "",
        combinedSegs := [], processedLabels := [], ocrCalls := [], answerCalls := [],
        deleted := [], extractedTextsBeforeReset := s.extractedTexts, finalSession := s } := by
  unfold processSessionScreenshots
  rw [if_pos h]

theorem segOf_eq_some {gem : Bool} {ex : Artifact → Option String}
    {ss : List (Option Artifact)} {a : Artifact} {n : Nat} {t : String}
    (h : segOf gem ex ss a = some (n, t)) :
    n = screenshotNumber ss a ∧ extractStep gem ex a = some t ∧ t.isEmpty = false := by
  unfold segOf at h
  cases he : extractStep gem ex a with
  | none => rw [he] at h; simp at h
  | some u =>
    rw [he] at h
    by_cases hu : u.isEmpty
    · simp [hu] at h
    · simp [hu] at h
      exact ⟨h.1.symm, by rw [h.2], by rw [← h.2]; simpa using hu⟩

theorem mem_some_of_mem_filterMap {ss : List (Option Artifact)} {a : Artifact}
    (h : a ∈ ss.filterMap id) : some a ∈ ss := by
  rcases List.mem_filterMap.mp h with ⟨o, ho, hoa⟩
  have hoeq : o = some a := by simpa using hoa
  rwa [hoeq] at ho

theorem screenshotNumber_inj {ss : List (Option Artifact)} {a b : Artifact}
    (ha : some a ∈ ss) (hb : some b ∈ ss)
    (h : screenshotNumber ss a = screenshotNumber ss b) : a = b := by
  unfold screenshotNumber at h
  have hna : ss.findIdx (fun s => s == some a) < ss.length :=
    List.findIdx_lt_length_of_exists ⟨some a, ha, by simp⟩
  have hnb : ss.findIdx (fun s => s == some b) < ss.length :=
    List.findIdx_lt_length_of_exists ⟨some b, hb, by simp⟩
  have hga : ss[ss.findIdx (fun s => s == some a)]? = some (some a) := by
    rw [List.getElem?_eq_getElem hna]
    have := List.findIdx_getElem (p := fun s => s == some a) (w := hna)
    simpa using this
  have hgb : ss[ss.findIdx (fun s => s == some b)]? = some (some b) := by
    rw [List.getElem?_eq_getElem hnb]
    have := List.findIdx_getElem (p := fun s => s == some b) (w := hnb)
    simpa using this
  have hidx : ss.findIdx (fun s => s == some a) = ss.findIdx (fun s => s == some b) := by omega
  rw [hidx] at hga
  rw [hga] at hgb
  exact Option.some.inj (Option.some.inj hgb)

theorem getSlot_foldl_storeSeg (gem : Bool) (ex : Artifact → Option String)
    (ss : List (Option Artifact)) (valid : List Artifact) (et0 : List (Option String))
    (a : Artifact) (n : Nat) (t : String)
    (hmem : ∀ x ∈ valid, some x ∈ ss) (ha : a ∈ valid)
    (hseg : segOf gem ex ss a = some (n, t)) :
    getSlot (valid.foldl (fun et x => storeSeg et (segOf gem ex ss x)) et0) (n - 1) = some t := by
  induction valid using List.reverseRecOn with
  | nil => exact absurd ha (List.not_mem_nil a)
  | append_singleton l b ih =>
    rw [List.foldl_append, List.foldl_cons, List.foldl_nil]
    by_cases hab : b = a
    · subst hab
      rw [hseg]
      simp [storeSeg, getSlot_setSlot_self]
    · have ha' : a ∈ l := by
        rcases List.mem_append.mp ha with h | h
        · exact h
        · simp at h
          exact absurd h.symm hab
      have hmem' : ∀ x ∈ l, some x ∈ ss := fun x hx => hmem x (List.mem_append.mpr (Or.inl hx))
      cases hb : segOf gem ex ss b with
      | none =>
        simpa [storeSeg] using ih hmem' ha'
      | some p =>
        obtain ⟨m, u⟩ := p
        have hmb : m = screenshotNumber ss b := (segOf_eq_some hb).1
        have hna : n = screenshotNumber ss a := (segOf_eq_some hseg).1
        have hmn : m - 1 ≠ n - 1 := by
          intro hEq
          have h1 : 1 ≤ m := by rw [hmb]; unfold screenshotNumber; omega
          have h2 : 1 ≤ n := by rw [hna]; unfold screenshotNumber; omega
          have hsab : screenshotNumber ss b = screenshotNumber ss a := by
            rw [← hmb, ← hna]; omega
          exact hab (screenshotNumber_inj (hmem b (by simp)) (hmem a ha) hsab)
        simp only [storeSeg]
        rw [getSlot_setSlot_ne _ _ _ _ hmn]
        exact ih hmem' ha'

theorem renderSegment_data_ne_nil (p : Nat × String) : (renderSegment p).data ≠ [] := by
  unfold renderSegment
  intro h
  simp only [String.data_append, List.append_eq_nil] at h
  have h19 : ("\n\n----- SCREENSHOT " : String).data ≠ [] := by decide
  exact h19 h.1.1.1

theorem join_render_isEmpty_false (p : Nat × String) (ps : List (Nat × String)) :
    (String.join ((p :: ps).map renderSegment)).isEmpty = false := by
  by_cases h : (String.join ((p :: ps).map renderSegment)).isEmpty
  · exfalso
    rw [String.isEmpty_iff] at h
    have hd := congrArg String.data h
    rw [String.data_join] at hd
    simp only [List.map_cons, List.map_map, List.flatten_cons, List.append_eq_nil] at hd
    exact renderSegment_data_ne_nil p (by simpa using hd.1)
  · simpa using h

theorem storeGet_cons_true {e : Nat × Session} {t : Store} {uid : Nat}
    (he : (e.1 == uid) = true) : storeGet (e :: t) uid = some e.2 := by
  unfold storeGet
  rw [List.find?_cons_of_pos (p := fun x : Nat × Session => x.1 == uid) _ he]
  rfl

theorem storeGet_cons_false {e : Nat × Session} {t : Store} {uid : Nat}
    (he : (e.1 == uid) = false) : storeGet (e :: t) uid = storeGet t uid := by
  unfold storeGet
  have hne : ¬((fun x : Nat × Session => x.1 == uid) e = true) := by simp [he]
  rw [List.find?_cons_of_neg (p := fun x : Nat × Session => x.1 == uid) _ hne]

theorem mem_sweepStore {now tm : Nat} {st : Store} {e : Nat × Session}
    (h : e ∈ sweepStore now tm st) : e ∈ st ∧ expiredSession now tm e.2 = false := by
  unfold sweepStore at h
  rcases List.mem_filterMap.mp h with ⟨x, hx, hfst⟩
  rcases List.mem_map.mp hx with ⟨y, hy, hxy⟩
  subst hxy
  unfold sweepEntry at hfst
  by_cases hexp : expiredSession now tm y.2
  · rw [if_pos hexp] at hfst
    simp at hfst
  · rw [if_neg hexp] at hfst
    simp at hfst
    rw [← hfst]
    exact ⟨hy, by simpa using hexp⟩

theorem find?_sweepStore_eq_none {now tm uid : Nat} {st : Store}
    (h : ∀ x ∈ st, (x.1 == uid) = false) :
    (sweepStore now tm st).find? (fun e => e.1 == uid) = none := by
  rw [List.find?_eq_none]
  intro x hx
  simp [h x (mem_sweepStore hx).1]

theorem sweepStore_append (now tm : Nat) (l₁ l₂ : Store) :
    sweepStore now tm (l₁ ++ l₂) = sweepStore now tm l₁ ++ sweepStore now tm l₂ := by
  simp [sweepStore, List.filterMap_append]

theorem sweepEvents_append (now tm : Nat) (l₁ l₂ : Store) :
    sweepEvents now tm (l₁ ++ l₂) = sweepEvents now tm l₁ ++ sweepEvents now tm l₂ := by
  simp [sweepEvents]

theorem sweepStore_cons (now tm : Nat) (e : Nat × Session) (t : Store) :
    sweepStore now tm (e :: t) =
      (if expiredSession now tm e.2 then sweepStore now tm t else e :: sweepStore now tm t) := by
  by_cases hexp : expiredSession now tm e.2 <;>
    simp [sweepStore, sweepEntry, hexp]

theorem sweepEvents_cons (now tm : Nat) (e : Nat × Session) (t : Store) :
    sweepEvents now tm (e :: t) = (sweepEntry now tm e).2 ++ sweepEvents now tm t := by
  simp [sweepEvents]

/-- An expired session disappears from the map in the sweep pass. -/
theorem storeGet_sweepStore_expired {now tm uid : Nat} {s : Session} (st : Store)
    (hnodup : (st.map Prod.fst).Nodup) (hget : storeGet st uid = some s)
    (hexp : expiredSession now tm s = true) :
    storeGet (sweepStore now tm st) uid = none := by
  induction st with
  | nil => simp [storeGet] at hget
  | cons e t ih =>
    simp only [List.map_cons, List.nodup_cons] at hnodup
    obtain ⟨hek, hnd⟩ := hnodup
    by_cases he : (e.1 == uid) = true
    · have hse : e.2 = s := by
        rw [storeGet_cons_true he] at hget
        exact Option.some.inj hget
      rw [sweepStore_cons, hse, if_pos hexp]
      show ((sweepStore now tm t).find? (fun x => x.1 == uid)).map (fun x => x.2) = none
      rw [find?_sweepStore_eq_none]
      · rfl
      · intro x hx
        by_cases hxu : (x.1 == uid) = true
        · exfalso
          have hxe : x.1 = e.1 := by
            have h1 : x.1 = uid := by simpa using hxu
            have h2 : e.1 = uid := by simpa using he
            rw [h1, h2]
          exact hek (by rw [← hxe]; exact List.mem_map_of_mem Prod.fst hx)
        · simpa using hxu
    · have he' : (e.1 == uid) = false := by simpa using he
      rw [storeGet_cons_false he'] at hget
      rw [sweepStore_cons]
      by_cases hexp2 : expiredSession now tm e.2
      · rw [if_pos hexp2]
        exact ih hnd hget
      · rw [if_neg hexp2]
        rw [storeGet_cons_false he']
        exact ih hnd hget


theorem completionsOf_cons (fails : Artifact → Bool) (e : SweepEvent) (t : List SweepEvent) :
    completionsOf fails (e :: t) =
      (match e with
        | SweepEvent.unlinkStarted a => [SweepEvent.unlinkCompleted a (!fails a)]
        | _ => []) ++ completionsOf fails t := by
  cases e <;> simp [completionsOf, List.filterMap_cons]

theorem completionsOf_map_forgetOk (fails : Artifact → Bool) (l : List SweepEvent) :
    (completionsOf fails l).map forgetOk = (completionsOf (fun _ => false) l).map forgetOk := by
  induction l with
  | nil => rfl
  | cons e t ih =>
    rw [completionsOf_cons, completionsOf_cons]
    cases e <;> simp [forgetOk, ih]

theorem eventBefore_sweepEvents {now tm uid : Nat} {s : Session} {a : Artifact} {st : Store}
    (hmem : (uid, s) ∈ st) (hexp : expiredSession now tm s = true)
    (hslot : some a ∈ s.screenshots) :
    eventBefore (isStarted a) (isRemoved uid) (sweepEvents now tm st) = true := by
  rcases List.append_of_mem hmem with ⟨l1, l2, rfl⟩
  rw [sweepEvents_append, sweepEvents_cons]
  apply eventBefore_append_of_right
  apply eventBefore_append_of_left
  have hblock : (sweepEntry now tm (uid, s)).2 =
      (s.screenshots.filterMap id).map SweepEvent.unlinkStarted ++
        [SweepEvent.sessionRemoved uid] := by
    simp [sweepEntry, hexp]
  rw [hblock]
  apply eventBefore_of_any
  · rw [List.any_eq_true]
    refine ⟨SweepEvent.unlinkStarted a, ?_, by simp [isStarted]⟩
    exact List.mem_map_of_mem _ (List.mem_filterMap.mpr ⟨some a, hslot, rfl⟩)
  · simp [isRemoved]

theorem storeGet_eq_none_iff {st : Store} {uid : Nat} :
    storeGet st uid = none ↔ ∀ x ∈ st, (x.1 == uid) = false := by
  unfold storeGet
  rw [Option.map_eq_none']
  rw [List.find?_eq_none]
  simp

theorem storeGet_sweepStore_append_single {now tm uid : Nat} {s : Session} {st : Store}
    (h : ∀ x ∈ st, (x.1 == uid) = false) :
    storeGet (sweepStore now tm (st ++ [(uid, s)])) uid =
      (if expiredSession now tm s then none else some s) := by
  rw [sweepStore_append]
  unfold storeGet
  rw [List.find?_append, find?_sweepStore_eq_none h]
  simp only [Option.none_or]
  by_cases hexp : expiredSession now tm s
  · simp [sweepStore, sweepEntry, hexp]
  · simp [sweepStore, sweepEntry, hexp]

theorem containsSS_iff {cs : List Char} : containsSS cs = true ↔ ['s', 's'] <:+: cs := by
  induction cs with
  | nil => simp [containsSS]
  | cons c rest ih =>
    cases rest with
    | nil =>
      simp [containsSS, List.infix_cons_iff, List.cons_prefix_cons, List.prefix_nil]
    | cons c2 t =>
      rw [show containsSS (c :: c2 :: t) = ((c == 's' && c2 == 's') || containsSS (c2 :: t))
        from rfl]
      rw [List.infix_cons_iff]
      simp only [List.cons_prefix_cons, Bool.or_eq_true, Bool.and_eq_true, beq_iff_eq, ih,
        List.nil_prefix, and_true]
      constructor
      · rintro (⟨h1, h2⟩ | h)
        · exact Or.inl ⟨h1.symm, h2.symm⟩
        · exact Or.inr h
      · rintro (⟨h1, h2⟩ | h)
        · exact Or.inl ⟨h1.symm, h2.symm⟩
        · exact Or.inr h

/-- C7: for every inbound text message whose chat id is not in the allow-list,
the handler produces no outbound reply and performs no session-store mutation:
the store is returned untouched and nothing was sent or unlinked. -/
theorem C7_unauthorized_silent_drop (cfg : Config) (chatIds : List Nat)
    (ex : Artifact → Option String) (answerOr : String → Option String)
    (captureResult : Option Artifact) (now : Nat) (st : Store) (chatId uid : Nat)
    (msg : List Char) (h : chatIds.contains chatId = false) :
    handleText cfg chatIds ex answerOr captureResult now st chatId uid msg =
      { store := st, branch := Branch.unauthorized, sentAny := false, unlinked := [] } := by
  unfold handleText
  rw [h]
  rfl

/-- C7 witness: a concrete unauthorized chat id is dropped with no effect. -/
theorem C7_witness :
    ([5] : List Nat).contains 6 = false ∧
    handleText CONFIG [5] (fun _ => none) (fun _ => none) none 0 [] 6 7 ['1'] =
      { store := [], branch := Branch.unauthorized, sentAny := false, unlinked := [] } :=
  ⟨by decide,
    C7_unauthorized_silent_drop CONFIG [5] (fun _ => none) (fun _ => none) none 0 [] 6 7 ['1']
      (by decide)⟩

/-- C8: any authorized message whose lower-cased text contains the substring
"ss" anywhere takes the single-shot branch and returns before the digit
handling: the session store is left untouched. -/
theorem C8_ss_substring_triggers_single_shot (cfg : Config) (chatIds : List Nat)
    (ex : Artifact → Option String) (answerOr : String → Option String)
    (captureResult : Option Artifact) (now : Nat) (st : Store) (chatId uid : Nat)
    (msg : List Char) (hauth : chatIds.contains chatId = true)
    (hss : ['s', 's'] <:+: msg.map Char.toLower) :
    (handleText cfg chatIds ex answerOr captureResult now st chatId uid msg).branch =
      Branch.singleShot ∧
    (handleText cfg chatIds ex answerOr captureResult now st chatId uid msg).store = st := by
  have hc : containsSS (msg.map Char.toLower) = true := containsSS_iff.mpr hss
  unfold handleText
  rw [hauth, hc]
  cases captureResult <;> exact ⟨rfl, rfl⟩

/-- C8 witness: "PaSsport" is not the keyword but contains "ss" after
lower-casing, and is routed to the single-shot flow. -/
theorem C8_witness :
    ([5] : List Nat).contains 5 = true ∧
    (['s', 's'] <:+: "PaSsport".toList.map Char.toLower) ∧
    (handleText CONFIG [5] (fun _ => none) (fun _ => none) (some 99) 0 [] 5 7
      "PaSsport".toList).branch = Branch.singleShot :=
  ⟨by decide, containsSS_iff.mp (by decide),
    (C8_ss_substring_triggers_single_shot CONFIG [5] (fun _ => none) (fun _ => none) (some 99) 0
      [] 5 7 "PaSsport".toList (by decide) (containsSS_iff.mp (by decide))).1⟩

/-- C2: after the capture sequence 1, 1 (artifacts 10 then 20) the slot holds
the last artifact, but the overwritten artifact 10 was never released: no
unlink call was made and its file is still on disk — the code leaks
overwritten artifacts instead of releasing them exactly once. -/
theorem C2_overwrite_never_released :
    (storeGet (runCaptureSeq CONFIG 1000 7 5 [(1, 10), (1, 20)]).store 7).map
        (fun s => getSlot s.screenshots 0) = some (some 20) ∧
    (runCaptureSeq CONFIG 1000 7 5 [(1, 10), (1, 20)]).unlinkCalls = [] ∧
    10 ∈ (runCaptureSeq CONFIG 1000 7 5 [(1, 10), (1, 20)]).files ∧
    (runCaptureSeq CONFIG 1000 7 5 [(1, 10), (1, 20), (0, 0)]).unlinkCalls = [20] ∧
    10 ∈ (runCaptureSeq CONFIG 1000 7 5 [(1, 10), (1, 20), (0, 0)]).files := by decide

/-- C3 counterexample: a batch run on an empty session returns the
nothing-to-do result but does not refresh `startTime` (it stays 5 instead of
the completion time 100), contradicting the claim's empty-session case. -/
theorem C3_cex_empty_run_keeps_startTime :
    (processSessionScreenshots CONFIG (fun _ => none) (fun _ => none) 100
      { userId := 1, chatId := 5, screenshots := [], extractedTexts := [],
        startTime := 5 }).noop = true ∧
    ¬ (processSessionScreenshots CONFIG (fun _ => none) (fun _ => none) 100
      { userId := 1, chatId := 5, screenshots := [], extractedTexts := [],
        startTime := 5 }).finalSession.startTime = 100 := by decide

/-- C3 (amended): after a batch run on a session with a non-empty screenshots
array, slots and extractedTexts are cleared and `startTime` is set to the
completion time, and an immediately following run returns the nothing-to-do
result; a run on an empty session returns the nothing-to-do result but leaves
the session — its `startTime` included — unchanged. -/
theorem C3_reset_after_run (cfg cfg2 : Config) (ex ex2 : Artifact → Option String)
    (answerOr answerOr2 : String → Option String) (t1 t2 : Nat) (s : Session) :
    (s.screenshots.length ≠ 0 →
      (processSessionScreenshots cfg ex answerOr t1 s).finalSession.screenshots = [] ∧
      (processSessionScreenshots cfg ex answerOr t1 s).finalSession.extractedTexts = [] ∧
      (processSessionScreenshots cfg ex answerOr t1 s).finalSession.startTime = t1 ∧
      (processSessionScreenshots cfg2 ex2 answerOr2 t2
        (processSessionScreenshots cfg ex answerOr t1 s).finalSession).noop = true) ∧
    (s.screenshots.length = 0 →
      (processSessionScreenshots cfg ex answerOr t1 s).noop = true ∧
      (processSessionScreenshots cfg ex answerOr t1 s).finalSession = s) := by
  constructor
  · intro h
    rw [processSessionScreenshots_run cfg ex answerOr t1 s h]
    refine ⟨rfl, rfl, rfl, ?_⟩
    rw [processSessionScreenshots_noop cfg2 ex2 answerOr2 t2 _ (by simp)]
  · intro h
    rw [processSessionScreenshots_noop cfg ex answerOr t1 s h]
    exact ⟨rfl, rfl⟩

/-- C3 witness: a concrete non-empty run resets the session and the next run
is the nothing-to-do case. -/
theorem C3_witness :
    (processSessionScreenshots CONFIG (fun _ => some "x") (fun _ => none) 9
      { userId := 1, chatId := 5, screenshots := [some 3], extractedTexts := [],
        startTime := 0 }).finalSession.startTime = 9 ∧
    (processSessionScreenshots CONFIG (fun _ => some "x") (fun _ => none) 11
      (processSessionScreenshots CONFIG (fun _ => some "x") (fun _ => none) 9
        { userId := 1, chatId := 5, screenshots := [some 3], extractedTexts := [],
          startTime := 0 }).finalSession).noop = true := by
  have h := (C3_reset_after_run CONFIG CONFIG (fun _ => some "x") (fun _ => some "x")
    (fun _ => none) (fun _ => none) 9 11
    { userId := 1, chatId := 5, screenshots := [some 3], extractedTexts := [],
      startTime := 0 }).1 (by decide)
  exact ⟨h.2.2.1, h.2.2.2⟩

/-- C4 counterexample: one expired session holding artifact 7.  The sweep
removes session 1 from the map, but no completion of the deletion of artifact
7 precedes the removal event — the session disappears while its artifact is
still unreleased, contradicting the claim that every occupied artifact is
released (its file deleted) before the session is removed. -/
theorem C4_cex_removed_before_release :
    expiredSession 2700001 (timeoutMs CONFIG) (Session.mk 1 5 [some 7] [] 0) = true ∧
    some 7 ∈ (Session.mk 1 5 [some 7] [] 0).screenshots ∧
    storeGet (cleanupSessions CONFIG 2700001 (fun _ => false)
      [(1, Session.mk 1 5 [some 7] [] 0)]).1 1 = none ∧
    eventBefore (isCompleted 7) (isRemoved 1)
      (cleanupSessions CONFIG 2700001 (fun _ => false)
        [(1, Session.mk 1 5 [some 7] [] 0)]).2 = false := by decide

/-- C4 (amended): for every expired session, the unlink of every occupied
slot's artifact is started before the session's removal event and the session
is removed from the map; but the sweep does not await the deletions (the
completions are observed only after the synchronous pass, so the session can
disappear while deletions are pending, see the counterexample); and a failure
to release an artifact does not abort the sweep: the resulting map and the
flag-erased event trace are exactly those of a failure-free sweep. -/
theorem C4_sweep_starts_release_before_removal (cfg : Config) (now : Nat)
    (fails : Artifact → Bool) (st : Store) (uid : Nat) (s : Session) (a : Artifact)
    (hnodup : (st.map Prod.fst).Nodup)
    (hget : storeGet st uid = some s)
    (hexp : expiredSession now (timeoutMs cfg) s = true)
    (hslot : some a ∈ s.screenshots) :
    eventBefore (isStarted a) (isRemoved uid) (cleanupSessions cfg now fails st).2 = true ∧
    storeGet (cleanupSessions cfg now fails st).1 uid = none ∧
    (cleanupSessions cfg now fails st).1 = (cleanupSessions cfg now (fun _ => false) st).1 ∧
    (cleanupSessions cfg now fails st).2.map forgetOk =
      (cleanupSessions cfg now (fun _ => false) st).2.map forgetOk := by
  have hmem : (uid, s) ∈ st := by
    unfold storeGet at hget
    cases hfind : st.find? (fun e => e.1 == uid) with
    | none => rw [hfind] at hget; simp at hget
    | some e =>
      rw [hfind] at hget
      simp only [Option.map_some'] at hget
      have he : ((fun x : Nat × Session => x.1 == uid) e) = true :=
        List.find?_some (p := fun x : Nat × Session => x.1 == uid) hfind
      have hmem' := List.mem_of_find?_eq_some hfind
      have heq : e = (uid, s) := by
        obtain ⟨k, v⟩ := e
        simp only at hget he
        have hk : k = uid := by simpa using he
        have hv : v = s := Option.some.inj hget
        rw [hk, hv]
      rw [← heq]
      exact hmem'
  refine ⟨?_, ?_, rfl, ?_⟩
  · exact eventBefore_append_of_left _ (eventBefore_sweepEvents hmem hexp hslot)
  · exact storeGet_sweepStore_expired st hnodup hget hexp
  · show (sweepEvents now (timeoutMs cfg) st ++
        completionsOf fails (sweepEvents now (timeoutMs cfg) st)).map forgetOk =
      (sweepEvents now (timeoutMs cfg) st ++
        completionsOf (fun _ => false) (sweepEvents now (timeoutMs cfg) st)).map forgetOk
    rw [List.map_append, List.map_append, completionsOf_map_forgetOk]

/-- C4 witness: a concrete sweep with one expired and one live session, where
the deletion of artifact 7 fails. -/
theorem C4_witness :
    eventBefore (isStarted 7) (isRemoved 1)
      (cleanupSessions CONFIG 2700001 (fun a => a == 7)
        [(1, Session.mk 1 5 [some 7] [] 0), (2, Session.mk 2 5 [] [] 2700000)]).2 = true ∧
    storeGet (cleanupSessions CONFIG 2700001 (fun a => a == 7)
      [(1, Session.mk 1 5 [some 7] [] 0), (2, Session.mk 2 5 [] [] 2700000)]).1 1 = none := by
  have h := C4_sweep_starts_release_before_removal CONFIG 2700001 (fun a => a == 7)
    [(1, Session.mk 1 5 [some 7] [] 0), (2, Session.mk 2 5 [] [] 2700000)] 1
    (Session.mk 1 5 [some 7] [] 0) 7 (by decide) (by decide) (by decide) (by decide)
  exact ⟨h.1, h.2.1⟩

/-- C9: for an authorized user with no session, the digit-0 command first
creates and inserts a fresh empty session (`getOrCreateSession` runs before
the empty check), so the handler replies "no screenshots" yet appends a new
entry to the store; the entry survives a sweep exactly until its age exceeds
the timeout. -/
theorem C9_digit0_creates_session (cfg : Config) (chatIds : List Nat)
    (ex : Artifact → Option String) (answerOr : String → Option String)
    (captureResult : Option Artifact) (now : Nat) (st : Store) (chatId uid : Nat)
    (hauth : chatIds.contains chatId = true)
    (hnone : storeGet st uid = none) :
    handleText cfg chatIds ex answerOr captureResult now st chatId uid ['0'] =
      { store := st ++ [(uid, createSession uid chatId now)],
        branch := Branch.digitProcessEmpty, sentAny := true, unlinked := [] } ∧
    storeGet (handleText cfg chatIds ex answerOr captureResult now st chatId uid ['0']).store
      uid = some (createSession uid chatId now) ∧
    (∀ (now2 : Nat) (fails : Artifact → Bool),
      storeGet (cleanupSessions cfg now2 fails
          (handleText cfg chatIds ex answerOr captureResult now st chatId uid ['0']).store).1
          uid =
        (if expiredSession now2 (timeoutMs cfg) (createSession uid chatId now) then none
         else some (createSession uid chatId now))) := by
  have hkeys : ∀ x ∈ st, (x.1 == uid) = false := storeGet_eq_none_iff.mp hnone
  have hany : st.any (fun e => e.1 == uid) = false := by
    rw [List.any_eq_false]
    intro x hx
    simp [hkeys x hx]
  have hfindnone : st.find? (fun e => e.1 == uid) = none := by
    have h2 := hnone
    unfold storeGet at h2
    exact Option.map_eq_none'.mp h2
  have hres : handleText cfg chatIds ex answerOr captureResult now st chatId uid ['0'] =
      { store := st ++ [(uid, createSession uid chatId now)],
        branch := Branch.digitProcessEmpty, sentAny := true, unlinked := [] } := by
    unfold handleText
    rw [hauth]
    rw [(by decide : containsSS (List.map Char.toLower ['0']) = false)]
    show handleDigit cfg ex answerOr captureResult now st uid chatId 0 = _
    unfold handleDigit getOrCreateSession
    rw [hnone]
    unfold storeSet
    rw [hany]
    rfl
  refine ⟨hres, ?_, ?_⟩
  · rw [hres]
    show storeGet (st ++ [(uid, createSession uid chatId now)]) uid = _
    unfold storeGet
    rw [List.find?_append, hfindnone]
    simp
  · intro now2 fails
    rw [hres]
    exact storeGet_sweepStore_append_single hkeys

/-- C9 witness: user 7 with no session sends 0; a fresh session is inserted
and survives a sweep 100 ms later. -/
theorem C9_witness :
    (handleText CONFIG [5] (fun _ => none) (fun _ => none) none 42 [] 5 7 ['0']).store =
      [] ++ [(7, createSession 7 5 42)] ∧
    storeGet (cleanupSessions CONFIG 142 (fun _ => false)
      (handleText CONFIG [5] (fun _ => none) (fun _ => none) none 42 [] 5 7 ['0']).store).1 7 =
      (if expiredSession 142 (timeoutMs CONFIG) (createSession 7 5 42) then none
       else some (createSession 7 5 42)) := by
  have h := C9_digit0_creates_session CONFIG [5] (fun _ => none) (fun _ => none) none 42 [] 5 7
    (by decide) (by decide)
  refine ⟨?_, h.2.2 142 (fun _ => false)⟩
  rw [h.1]

/-- C5: in every non-empty batch run, no per-item extraction failure aborts
the loop — every occupied slot is processed (and its file unlinked) in
ascending slot order — and the summary reports total = number of occupied
slots, success = number of truthy extraction results, failed = total minus
success, while the combined text passed to the single answer call is built
from exactly the successful items' segments. -/
theorem C5_partial_failure_isolated (cfg : Config) (ex : Artifact → Option String)
    (answerOr : String → Option String) (endTime : Nat) (s : Session)
    (h : s.screenshots.length ≠ 0) :
    (processSessionScreenshots cfg ex answerOr endTime s).total =
      (s.screenshots.filterMap id).length ∧
    (processSessionScreenshots cfg ex answerOr endTime s).processedLabels =
      (s.screenshots.filterMap id).map (screenshotNumber s.screenshots) ∧
    (processSessionScreenshots cfg ex answerOr endTime s).deleted =
      s.screenshots.filterMap id ∧
    (processSessionScreenshots cfg ex answerOr endTime s).combinedSegs =
      (s.screenshots.filterMap id).filterMap (segOf cfg.gemini_ocr ex s.screenshots) ∧
    (processSessionScreenshots cfg ex answerOr endTime s).success =
      (processSessionScreenshots cfg ex answerOr endTime s).combinedSegs.length ∧
    (processSessionScreenshots cfg ex answerOr endTime s).failed =
      (processSessionScreenshots cfg ex answerOr endTime s).total -
        (processSessionScreenshots cfg ex answerOr endTime s).success ∧
    (processSessionScreenshots cfg ex answerOr endTime s).combined =
      String.join
        (((processSessionScreenshots cfg ex answerOr endTime s).combinedSegs).map
          renderSegment) := by
  rw [processSessionScreenshots_run cfg ex answerOr endTime s h]
  exact ⟨rfl, rfl, rfl, rfl, rfl, rfl, rfl⟩

/-- C5 witness: slots 1, 3, 5 occupied, extraction fails at slot 3 and
succeeds at 1 and 5: total 3, success 2, failed 1, and the combined segments
are exactly those of slots 1 and 5. -/
theorem C5_witness :
    (processSessionScreenshots CONFIG
      (fun a => if a == 30 then none else some "A") (fun _ => none) 9
      (Session.mk 1 5 [some 10, none, some 30, none, some 50] [] 0)).total = 3 ∧
    (processSessionScreenshots CONFIG
      (fun a => if a == 30 then none else some "A") (fun _ => none) 9
      (Session.mk 1 5 [some 10, none, some 30, none, some 50] [] 0)).success = 2 ∧
    (processSessionScreenshots CONFIG
      (fun a => if a == 30 then none else some "A") (fun _ => none) 9
      (Session.mk 1 5 [some 10, none, some 30, none, some 50] [] 0)).failed = 1 ∧
    (processSessionScreenshots CONFIG
      (fun a => if a == 30 then none else some "A") (fun _ => none) 9
      (Session.mk 1 5 [some 10, none, some 30, none, some 50] [] 0)).combinedSegs =
      [(1, "A"), (5, "A")] ∧
    (processSessionScreenshots CONFIG
      (fun a => if a == 30 then none else some "A") (fun _ => none) 9
      (Session.mk 1 5 [some 10, none, some 30, none, some 50] [] 0)).processedLabels =
      [1, 3, 5] := by
  have h := C5_partial_failure_isolated CONFIG
    (fun a => if a == 30 then none else some "A") (fun _ => none) 9
    (Session.mk 1 5 [some 10, none, some 30, none, some 50] [] 0) (by decide)
  obtain ⟨h1, h2, h3, h4, h5, h6, h7⟩ := h
  refine ⟨h1.trans (by decide), ?_, ?_, h4.trans (by decide), h2.trans (by decide)⟩
  · rw [h5, h4]
    decide
  · rw [h6, h1, h5, h4]
    decide

theorem segOf_eq_of (gem : Bool) (ex : Artifact → Option String)
    (ss : List (Option Artifact)) (a : Artifact) (t : String)
    (he : extractStep gem ex a = some t) (ht : t.isEmpty = false) :
    segOf gem ex ss a = some (screenshotNumber ss a, t) := by
  unfold segOf
  rw [he]
  simp [ht]

/-- C1: a session whose slots are occupied exactly at slot numbers 1, 3 and 5
(distinct artifacts, every other slot empty) is processed in one batch run as
exactly 3 items in ascending slot order 1, 3, 5, and when each extraction
yields a truthy result the combined buffer holds exactly 3 delimited segments
labelled with the original slot numbers 1, 3, 5 — not the loop positions. -/
theorem C1_sparse_slots_labelled_by_slot_number (cfg : Config)
    (ex : Artifact → Option String) (answerOr : String → Option String) (endTime : Nat)
    (uid chatId st0 : Nat) (a1 a3 a5 : Artifact) (rest : List (Option Artifact))
    (t1 t3 t5 : String)
    (h13 : a1 ≠ a3) (h15 : a1 ≠ a5) (h35 : a3 ≠ a5)
    (hrest : ∀ o ∈ rest, o = none)
    (he1 : extractStep cfg.gemini_ocr ex a1 = some t1) (ht1 : t1.isEmpty = false)
    (he3 : extractStep cfg.gemini_ocr ex a3 = some t3) (ht3 : t3.isEmpty = false)
    (he5 : extractStep cfg.gemini_ocr ex a5 = some t5) (ht5 : t5.isEmpty = false) :
    (processSessionScreenshots cfg ex answerOr endTime (Session.mk uid chatId
      ([some a1, none, some a3, none, some a5] ++ rest) [] st0)).total = 3 ∧
    (processSessionScreenshots cfg ex answerOr endTime (Session.mk uid chatId
      ([some a1, none, some a3, none, some a5] ++ rest) [] st0)).processedLabels = [1, 3, 5] ∧
    (processSessionScreenshots cfg ex answerOr endTime (Session.mk uid chatId
      ([some a1, none, some a3, none, some a5] ++ rest) [] st0)).combinedSegs =
      [(1, t1), (3, t3), (5, t5)] := by
  have hb13 : (a1 == a3) = false := beq_eq_false_iff_ne.mpr h13
  have hb15 : (a1 == a5) = false := beq_eq_false_iff_ne.mpr h15
  have hb35 : (a3 == a5) = false := beq_eq_false_iff_ne.mpr h35
  have hlen : (Session.mk uid chatId ([some a1, none, some a3, none, some a5] ++ rest) []
      st0).screenshots.length ≠ 0 := by
    simp
  have hrm : List.filterMap id rest = [] :=
    List.filterMap_eq_nil_iff.mpr (fun o ho => by simp [hrest o ho])
  have hfm : ([some a1, none, some a3, none, some a5] ++ rest).filterMap id =
      [a1, a3, a5] := by
    rw [List.filterMap_append, hrm]
    simp
  have hn1 : screenshotNumber ([some a1, none, some a3, none, some a5] ++ rest) a1 = 1 := by
    unfold screenshotNumber
    simp [List.findIdx_cons]
  have hn3 : screenshotNumber ([some a1, none, some a3, none, some a5] ++ rest) a3 = 3 := by
    unfold screenshotNumber
    simp [List.findIdx_cons, hb13]
  have hn5 : screenshotNumber ([some a1, none, some a3, none, some a5] ++ rest) a5 = 5 := by
    unfold screenshotNumber
    simp [List.findIdx_cons, hb15, hb35]
  have hs1 := segOf_eq_of cfg.gemini_ocr ex
    ([some a1, none, some a3, none, some a5] ++ rest) a1 t1 he1 ht1
  have hs3 := segOf_eq_of cfg.gemini_ocr ex
    ([some a1, none, some a3, none, some a5] ++ rest) a3 t3 he3 ht3
  have hs5 := segOf_eq_of cfg.gemini_ocr ex
    ([some a1, none, some a3, none, some a5] ++ rest) a5 t5 he5 ht5
  rw [hn1] at hs1
  rw [hn3] at hs3
  rw [hn5] at hs5
  rw [processSessionScreenshots_run cfg ex answerOr endTime _ hlen]
  refine ⟨?_, ?_, ?_⟩
  · show (([some a1, none, some a3, none, some a5] ++ rest).filterMap id).length = 3
    rw [hfm]
    rfl
  · show (([some a1, none, some a3, none, some a5] ++ rest).filterMap id).map
      (screenshotNumber ([some a1, none, some a3, none, some a5] ++ rest)) = [1, 3, 5]
    rw [hfm]
    simp only [List.map_cons, List.map_nil]
    rw [hn1, hn3, hn5]
  · show (([some a1, none, some a3, none, some a5] ++ rest).filterMap id).filterMap
      (segOf cfg.gemini_ocr ex ([some a1, none, some a3, none, some a5] ++ rest)) =
      [(1, t1), (3, t3), (5, t5)]
    rw [hfm]
    simp only [List.filterMap_cons, hs1, hs3, hs5, List.filterMap_nil]

/-- C1 witness: concrete artifacts 10, 30, 50 with the OCR oracle returning
their decimal strings. -/
theorem C1_witness :
    (processSessionScreenshots CONFIG (fun a => some (toString a)) (fun _ => none) 9
      (Session.mk 1 5 ([some 10, none, some 30, none, some 50] ++ []) [] 0)).total = 3 ∧
    (processSessionScreenshots CONFIG (fun a => some (toString a)) (fun _ => none) 9
      (Session.mk 1 5 ([some 10, none, some 30, none, some 50] ++ [])
        [] 0)).processedLabels = [1, 3, 5] ∧
    (processSessionScreenshots CONFIG (fun a => some (toString a)) (fun _ => none) 9
      (Session.mk 1 5 ([some 10, none, some 30, none, some 50] ++ [])
        [] 0)).combinedSegs = [(1, "10"), (3, "30"), (5, "50")] :=
  C1_sparse_slots_labelled_by_slot_number CONFIG (fun a => some (toString a)) (fun _ => none)
    9 1 5 0 10 30 50 [] "10" "30" "50" (by decide) (by decide) (by decide)
    (fun o ho => by simp at ho) (by decide) (by decide) (by decide) (by decide) (by decide)
    (by decide)

/-- C6: with the OCR flag disabled, `extractTextFromImage` returns its fixed
sentinel with no upload attempt, the batch pipeline never invokes it at all
(zero OCR calls — no network), every stored segment is the batch sentinel, and
a non-empty run still completes (not the no-op result) and resets the
session. -/
theorem C6_ocr_disabled_no_network (c : Bool) (tmo : Nat) (ex : Artifact → Option String)
    (answerOr : String → Option String) (endTime : Nat) (s : Session)
    (upload : Artifact → Option Nat) (ocr : Nat → Option String) (a0 : Artifact) :
    extractTextFromImage false upload ocr a0 = (some EXTRACT_SENTINEL, []) ∧
    (processSessionScreenshots (Config.mk false c tmo) ex answerOr endTime s).ocrCalls = [] ∧
    (∀ p ∈ (processSessionScreenshots (Config.mk false c tmo) ex answerOr endTime
      s).combinedSegs, p.2 = SENTINEL_BATCH) ∧
    (s.screenshots.length ≠ 0 →
      (processSessionScreenshots (Config.mk false c tmo) ex answerOr endTime s).noop = false ∧
      (processSessionScreenshots (Config.mk false c tmo) ex answerOr endTime s).finalSession =
        Session.mk s.userId s.chatId [] [] endTime) := by
  refine ⟨rfl, ?_, ?_, ?_⟩
  · by_cases hlen : s.screenshots.length = 0
    · rw [processSessionScreenshots_noop _ ex answerOr endTime s hlen]
    · rw [processSessionScreenshots_run _ ex answerOr endTime s hlen]
      rfl
  · intro p hp
    by_cases hlen : s.screenshots.length = 0
    · rw [processSessionScreenshots_noop _ ex answerOr endTime s hlen] at hp
      simp at hp
    · rw [processSessionScreenshots_run _ ex answerOr endTime s hlen] at hp
      have hp2 : p ∈ (s.screenshots.filterMap id).filterMap
          (segOf false ex s.screenshots) := hp
      rcases List.mem_filterMap.mp hp2 with ⟨x, _, hseg⟩
      have hext : extractStep false ex x = some p.2 :=
        (segOf_eq_some (show segOf false ex s.screenshots x = some (p.1, p.2) from hseg)).2.1
      have hsent : extractStep false ex x = some SENTINEL_BATCH := rfl
      exact (Option.some.inj (hsent.symm.trans hext)).symm
  · intro hlen
    rw [processSessionScreenshots_run _ ex answerOr endTime s hlen]
    exact ⟨rfl, rfl⟩

/-- C6 witness: one occupied slot, OCR off: no OCR call, the stored segment is
the sentinel, and the session is reset. -/
theorem C6_witness :
    (processSessionScreenshots (Config.mk false true 45) (fun _ => none) (fun _ => none) 9
      (Session.mk 1 5 [some 10] [] 0)).ocrCalls = [] ∧
    (1, SENTINEL_BATCH).2 = SENTINEL_BATCH ∧
    (processSessionScreenshots (Config.mk false true 45) (fun _ => none) (fun _ => none) 9
      (Session.mk 1 5 [some 10] [] 0)).noop = false ∧
    (processSessionScreenshots (Config.mk false true 45) (fun _ => none) (fun _ => none) 9
      (Session.mk 1 5 [some 10] [] 0)).finalSession = Session.mk 1 5 [] [] 9 := by
  have h := C6_ocr_disabled_no_network true 45 (fun _ => none) (fun _ => none) 9
    (Session.mk 1 5 [some 10] [] 0) (fun _ => none) (fun _ => none) 3
  have h2 := h.2.2.2 (by decide)
  exact ⟨h.2.1, h.2.2.1 (1, SENTINEL_BATCH) (by decide), h2.1, h2.2⟩

/-- C10: with OCR off and answering on, the per-item sentinel is truthy, so it
is stored into `extractedTexts` at every occupied slot's index and every item
counts as a success (success = total, failed = 0), and one real
answer-generation request is issued over the concatenation of the sentinel
segments. -/
theorem C10_sentinel_truthy_counts_success (tmo : Nat) (ex : Artifact → Option String)
    (answerOr : String → Option String) (endTime : Nat) (s : Session)
    (h : s.screenshots.filterMap id ≠ []) :
    (processSessionScreenshots (Config.mk false true tmo) ex answerOr endTime s).combinedSegs =
      (s.screenshots.filterMap id).map
        (fun a => (screenshotNumber s.screenshots a, SENTINEL_BATCH)) ∧
    (processSessionScreenshots (Config.mk false true tmo) ex answerOr endTime s).success =
      (processSessionScreenshots (Config.mk false true tmo) ex answerOr endTime s).total ∧
    (processSessionScreenshots (Config.mk false true tmo) ex answerOr endTime s).failed = 0 ∧
    (∀ a ∈ s.screenshots.filterMap id,
      getSlot (processSessionScreenshots (Config.mk false true tmo) ex answerOr endTime
        s).extractedTextsBeforeReset (screenshotNumber s.screenshots a - 1) =
        some SENTINEL_BATCH) ∧
    (processSessionScreenshots (Config.mk false true tmo) ex answerOr endTime s).answerCalls =
      [(processSessionScreenshots (Config.mk false true tmo) ex answerOr endTime s).combined]
    := by
  have hlen : s.screenshots.length ≠ 0 := by
    intro h0
    exact h (by rw [List.length_eq_zero.mp h0]; rfl)
  have hsegOf : ∀ a : Artifact, segOf false ex s.screenshots a =
      some (screenshotNumber s.screenshots a, SENTINEL_BATCH) := fun a =>
    segOf_eq_of false ex s.screenshots a SENTINEL_BATCH rfl (by decide)
  have hsegs : ∀ l : List Artifact, l.filterMap (segOf false ex s.screenshots) =
      l.map (fun a => (screenshotNumber s.screenshots a, SENTINEL_BATCH)) := by
    intro l
    induction l with
    | nil => rfl
    | cons x xs ih => simp only [List.filterMap_cons, hsegOf, List.map_cons, ih]
  refine ⟨?_, ?_, ?_, ?_, ?_⟩
  · rw [processSessionScreenshots_run _ ex answerOr endTime s hlen]
    exact hsegs _
  · rw [processSessionScreenshots_run _ ex answerOr endTime s hlen]
    show ((s.screenshots.filterMap id).filterMap (segOf false ex s.screenshots)).length =
      (s.screenshots.filterMap id).length
    rw [hsegs, List.length_map]
  · rw [processSessionScreenshots_run _ ex answerOr endTime s hlen]
    show (s.screenshots.filterMap id).length -
      ((s.screenshots.filterMap id).filterMap (segOf false ex s.screenshots)).length = 0
    rw [hsegs, List.length_map]
    omega
  · intro a ha
    rw [processSessionScreenshots_run _ ex answerOr endTime s hlen]
    exact getSlot_foldl_storeSeg false ex s.screenshots (s.screenshots.filterMap id)
      s.extractedTexts a (screenshotNumber s.screenshots a) SENTINEL_BATCH
      (fun x hx => mem_some_of_mem_filterMap hx) ha (hsegOf a)
  · rw [processSessionScreenshots_run _ ex answerOr endTime s hlen]
    cases hc : s.screenshots.filterMap id with
    | nil => exact absurd hc h
    | cons x xs =>
      have hsegs2 := hsegs (x :: xs)
      rw [hsegs2, List.map_cons, join_render_isEmpty_false]
      rfl

/-- C10 witness: two occupied slots with OCR off and answering on. -/
theorem C10_witness :
    (processSessionScreenshots (Config.mk false true 45) (fun _ => none) (fun _ => none) 9
      (Session.mk 1 5 [some 10, none, some 30] [] 0)).success =
      (processSessionScreenshots (Config.mk false true 45) (fun _ => none) (fun _ => none) 9
        (Session.mk 1 5 [some 10, none, some 30] [] 0)).total ∧
    (processSessionScreenshots (Config.mk false true 45) (fun _ => none) (fun _ => none) 9
      (Session.mk 1 5 [some 10, none, some 30] [] 0)).failed = 0 ∧
    getSlot ((processSessionScreenshots (Config.mk false true 45) (fun _ => none)
        (fun _ => none) 9 (Session.mk 1 5 [some 10, none, some 30] [] 0)).extractedTextsBeforeReset)
      (screenshotNumber (Session.mk 1 5 [some 10, none, some 30] [] 0).screenshots 10 - 1) =
      some SENTINEL_BATCH ∧
    (processSessionScreenshots (Config.mk false true 45) (fun _ => none) (fun _ => none) 9
      (Session.mk 1 5 [some 10, none, some 30] [] 0)).answerCalls =
      [(processSessionScreenshots (Config.mk false true 45) (fun _ => none) (fun _ => none) 9
        (Session.mk 1 5 [some 10, none, some 30] [] 0)).combined] := by
  have h := C10_sentinel_truthy_counts_success 45 (fun _ => none) (fun _ => none) 9
    (Session.mk 1 5 [some 10, none, some 30] [] 0) (by decide)
  exact ⟨h.2.1, h.2.2.1, h.2.2.2.1 10 (by decide), h.2.2.2.2⟩
